import Mathlib

/-!
Verification development for the dns-http-scrape funnel
(src/dns-http-scrape.js): a three-stage verification pipeline
(DNS resolution, HTTP probe, homepage-text extraction) driven over a
batch of domains, producing one DomainRecord per input domain together
with per-stage success/failure counters.

External network calls (the DNS resolver, axios requests, the WHATWG URL
parser's hostname field, cheerio's body-text extraction) are modelled as
oracle functions passed in as parameters; everything the repository's own
code does with their answers is translated directly from the source.
-/

namespace Scrape

/-! ## Configuration constants (src/dns-http-scrape.js lines 15-21) -/

def LOG_INTERVAL : Nat := 100
def TEXT_MIN_CHARS : Nat := 200
def TEXT_MAX_CHARS : Nat := 10000
def TIMEOUT : Nat := 8000
def DNS_CONCURRENCY : Nat := 100
def HTTP_CONCURRENCY : Nat := 20
def TEXT_CONCURRENCY : Nat := 10

/-! ## isIpHost (lines 69-76)

The source reads `new URL(url).hostname` and tests it against the regex
`^\d\x7b1,3\x7d(\.\d\x7b1,3\x7d)\x7b3\x7d$`.  The URL parser is external:
it is modelled as an oracle `hn : String → Option String` returning the
hostname, `none` when the URL constructor throws (the catch branch of
isIpHost).  The regex test is translated to an executable check over the
hostname's characters. -/

/-- Split a character list into the groups separated by the dot character,
mirroring how the anchored regex divides the hostname. An empty input yields
one empty group, exactly as the regex sees an empty subject. -/
def splitDots : List Char → List (List Char)
  | [] => [[]]
  | c :: rest =>
    if c = '.' then [] :: splitDots rest
    else
      match splitDots rest with
      | [] => [[c]]
      | g :: gs => (c :: g) :: gs

/-- One regex group: between one and three decimal digits. -/
def digits13 (cs : List Char) : Bool :=
  decide (1 ≤ cs.length) && decide (cs.length ≤ 3) && cs.all (·.isDigit)

/-- The regex of line 72: four dot-separated groups of 1-3 decimal digits,
anchored at both ends. -/
def isDottedQuad (h : String) : Bool :=
  let parts := splitDots h.data
  decide (parts.length = 4) && parts.all digits13

/-- isIpHost (lines 69-76): hostname of the parsed URL matches the
dotted-quad regex; false when URL parsing throws. -/
def isIpHost (hn : String → Option String) (url : String) : Bool :=
  match hn url with
  | none => false
  | some host => isDottedQuad host

/-! ## httpCheck (lines 78-111)

The axios GET (with validateStatus accepting everything) is modelled as an
oracle `fetch : String → Option HttpResp`: `none` when the request throws
(timeout, connection error), otherwise the final status and the
fully-redirected response URL (`resp.request.res.responseUrl`). -/

/-- The answer of one axios.get call in httpCheck: final status code and
fully-redirected response URL. -/
structure HttpResp where
  status : Nat
  responseUrl : String
deriving DecidableEq

/-- Result shape of httpCheck (http_ok, final_url, status_code, used_https). -/
structure HttpResult where
  http_ok : Bool
  final_url : Option String
  status_code : Option Nat
  used_https : Bool
deriving DecidableEq

/-- The all-absent failure result of httpCheck (lines 97 and 110). -/
def httpNotOk : HttpResult :=
  { http_ok := false, final_url := none, status_code := none, used_https := false }

/-- The status test of line 94: final status in [200,400). -/
def statusOk (r : HttpResp) : Bool :=
  decide (200 ≤ r.status) && decide (r.status < 400)

/-- Executable model of `finalUrl.startsWith "https:\x2f\x2f"` (line 103):
the first eight characters of the URL spell out the secure scheme. -/
def httpsScheme (s : String) : Bool :=
  s.data.take 8 = "https://".data

/-- What httpCheck does once a candidate's final status is in [200,400)
(lines 94-104): reject a dotted-quad final host, otherwise return the ok
result built from the response. -/
def handleSuccess (hn : String → Option String) (r : HttpResp) : HttpResult :=
  if isIpHost hn r.responseUrl then httpNotOk
  else
    { http_ok := true
      final_url := some r.responseUrl
      status_code := some r.status
      used_https := httpsScheme r.responseUrl }

/-- The candidate-URL loop of httpCheck (lines 86-109): a thrown request or
a non-success status falls through to the next URL; exhaustion returns the
failure result of line 110. -/
def httpGo (hn : String → Option String) (fetch : String → Option HttpResp) :
    List String → HttpResult
  | [] => httpNotOk
  | url :: rest =>
    match fetch url with
    | none => httpGo hn fetch rest
    | some r => if statusOk r then handleSuccess hn r else httpGo hn fetch rest

/-- The four candidate URLs of lines 79-84, in source order. -/
def candidateUrls (domain : String) : List String :=
  ["https://" ++ domain ++ "/",
   "https://www." ++ domain ++ "/",
   "http://" ++ domain ++ "/",
   "http://www." ++ domain ++ "/"]

/-- httpCheck (lines 78-111). -/
def httpCheck (hn : String → Option String) (fetch : String → Option HttpResp)
    (domain : String) : HttpResult :=
  httpGo hn fetch (candidateUrls domain)

/-- The first response among a list of URLs whose request completes with a
final status in [200,400), in candidate order. -/
def firstSuccessOver (fetch : String → Option HttpResp) (urls : List String) :
    Option HttpResp :=
  urls.findSome? fun u =>
    match fetch u with
    | none => none
    | some r => if statusOk r then some r else none

/-- The first successful response among a domain's four candidates. -/
def firstSuccessResp (fetch : String → Option HttpResp) (domain : String) :
    Option HttpResp :=
  firstSuccessOver fetch (candidateUrls domain)

/-- Modelled from the spec: Probe tries the ordered candidate list and
stops at the first candidate whose request completes with a final status in
[200,400); if no candidate succeeds the result is not-ok.  Stated from the
spec's words to compare with the source's httpCheck. -/
def probeSpec (hn : String → Option String) (fetch : String → Option HttpResp)
    (domain : String) : HttpResult :=
  match firstSuccessResp fetch domain with
  | none => httpNotOk
  | some r => handleSuccess hn r

/-! ## fetchText (lines 113-130)

The axios GET together with cheerio's load / script-style-noscript removal /
body-text extraction is external: it is modelled as an oracle
`fetch : String → Option TextResp` giving `none` when the request or parse
throws and otherwise the final status plus the raw body text that
`cheerio` line 122 extracts.  The whitespace collapse and trim of line 123
and the length gate and slice of lines 124-125 are the repository's own
code and are translated below. -/

/-- The answer of the axios.get plus cheerio extraction in fetchText:
final status code and the raw body text of line 122. -/
structure TextResp where
  status : Nat
  bodyText : String
deriving DecidableEq

/-- Result shape of fetchText (homepage_text, text_ok). -/
structure TextResult where
  homepage_text : Option String
  text_ok : Bool
deriving DecidableEq

/-- Collapse every run of whitespace to a single space character, the
replace of line 123. -/
def collapseWs : List Char → List Char
  | [] => []
  | [c] => if c.isWhitespace then [' '] else [c]
  | c :: d :: rest =>
    if c.isWhitespace && d.isWhitespace then collapseWs (d :: rest)
    else (if c.isWhitespace then ' ' else c) :: collapseWs (d :: rest)

/-- Remove leading and trailing whitespace, the trim of line 123. -/
def trimChars (cs : List Char) : List Char :=
  ((cs.dropWhile Char.isWhitespace).reverse.dropWhile Char.isWhitespace).reverse

/-- Line 123: collapse whitespace runs to single spaces, then trim. -/
def normalizeWs (s : String) : String :=
  String.mk (trimChars (collapseWs s.data))

/-- The slice of line 125: the first n characters of the text. -/
def strTake (s : String) (n : Nat) : String :=
  String.mk (s.data.take n)

/-- fetchText (lines 113-130): a throwing request, a status outside
[200,400), or a normalized text shorter than TEXT_MIN_CHARS yields the
not-ok result; otherwise the text truncated to TEXT_MAX_CHARS is stored. -/
def fetchText (fetch : String → Option TextResp) (url : String) : TextResult :=
  match fetch url with
  | none => { homepage_text := none, text_ok := false }
  | some resp =>
    if 200 ≤ resp.status ∧ resp.status < 400 then
      let text := normalizeWs resp.bodyText
      if TEXT_MIN_CHARS ≤ text.length then
        { homepage_text := some (strTake text TEXT_MAX_CHARS), text_ok := true }
      else { homepage_text := none, text_ok := false }
    else { homepage_text := none, text_ok := false }

/-! ## dnsLookup (lines 59-66)

The resolver callback is modelled as an oracle
`resolve4 : String → Option (List String)`: `none` for the error callback,
otherwise the address list. -/

/-- Result shape of dnsLookup (has_dns, dns_ips). -/
structure DnsResult where
  has_dns : Bool
  dns_ips : Option String
deriving DecidableEq

/-- dnsLookup (lines 59-66): an error yields has_dns false with absent ips,
success joins the addresses with semicolons. -/
def dnsLookup (resolve4 : String → Option (List String)) (domain : String) :
    DnsResult :=
  match resolve4 domain with
  | none => { has_dns := false, dns_ips := none }
  | some addresses =>
    { has_dns := true, dns_ips := some (String.intercalate ";" addresses) }

/-! ## The main funnel loop (lines 142-225)

Each of the three awaited stage calls inside the per-domain try block
(lines 170, 176, 182) either returns its stage's result or throws an
unanticipated fault caught at line 197.  The three gated stage calls are
therefore modelled as `Except Unit`-valued oracles collected in `Env`; in
the real program each is the corresponding pure function above wrapped in
its limiter, and the error case models a thrown fault. -/

/-- The pipeline stage reached, the string field of line 166/173/179/185. -/
inductive Stage where
  | fail
  | dns
  | http
  | text
deriving DecidableEq

/-- The output row shape declared in the parquet schema (lines 28-39) and
pushed into results. -/
structure DomainRecord where
  domain : String
  has_dns : Bool
  dns_ips : Option String
  http_ok : Bool
  final_url : Option String
  status_code : Option Nat
  used_https : Bool
  text_ok : Bool
  homepage_text : Option String
  stage : Stage
deriving DecidableEq

/-- The six counters of lines 161-162. -/
structure Counters where
  dnsCount : Nat
  httpCount : Nat
  textCount : Nat
  dnsErrors : Nat
  httpErrors : Nat
  textErrors : Nat
deriving DecidableEq

/-- All counters start at zero (lines 161-162). -/
def initCounters : Counters :=
  { dnsCount := 0, httpCount := 0, textCount := 0,
    dnsErrors := 0, httpErrors := 0, textErrors := 0 }

/-- The three gated stage calls as seen from the per-domain try block: each
either returns its result or throws (the error case). -/
structure Env where
  dnsStage : String → Except Unit DnsResult
  httpStage : String → Except Unit HttpResult
  textStage : String → Except Unit TextResult

/-- The record pushed by the catch branch of lines 197-200: everything
absent or false, stage fail. -/
def failRecord (domain : String) : DomainRecord :=
  { domain := domain, has_dns := false, dns_ips := none, http_ok := false,
    final_url := none, status_code := none, used_https := false,
    text_ok := false, homepage_text := none, stage := .fail }

/-- One iteration of the main loop (lines 164-200): the record pushed for
this domain and the updated counters.  Statement order follows the source:
a dns failure or a caught fault pushes immediately with stage fail;
otherwise dnsCount is incremented before the http call, httpCount before
the text call, and the terminal branch increments the matching counter. -/
def processDomain (env : Env) (c : Counters) (domain : String) :
    DomainRecord × Counters :=
  match env.dnsStage domain with
  | .error _ => (failRecord domain, { c with dnsErrors := c.dnsErrors + 1 })
  | .ok dnsRes =>
    if !dnsRes.has_dns then
      ({ domain := domain, has_dns := dnsRes.has_dns, dns_ips := dnsRes.dns_ips,
         http_ok := false, final_url := none, status_code := none,
         used_https := false, text_ok := false, homepage_text := none,
         stage := .fail },
       { c with dnsErrors := c.dnsErrors + 1 })
    else
      let c1 := { c with dnsCount := c.dnsCount + 1 }
      match env.httpStage domain with
      | .error _ => (failRecord domain, { c1 with dnsErrors := c1.dnsErrors + 1 })
      | .ok httpRes =>
        if !httpRes.http_ok then
          ({ domain := domain, has_dns := dnsRes.has_dns,
             dns_ips := dnsRes.dns_ips, http_ok := httpRes.http_ok,
             final_url := httpRes.final_url, status_code := httpRes.status_code,
             used_https := httpRes.used_https, text_ok := false,
             homepage_text := none, stage := .dns },
           { c1 with httpErrors := c1.httpErrors + 1 })
        else
          let c2 := { c1 with httpCount := c1.httpCount + 1 }
          match env.textStage (httpRes.final_url.getD "") with
          | .error _ =>
            (failRecord domain, { c2 with dnsErrors := c2.dnsErrors + 1 })
          | .ok textRes =>
            if !textRes.text_ok then
              ({ domain := domain, has_dns := dnsRes.has_dns,
                 dns_ips := dnsRes.dns_ips, http_ok := httpRes.http_ok,
                 final_url := httpRes.final_url,
                 status_code := httpRes.status_code,
                 used_https := httpRes.used_https, text_ok := textRes.text_ok,
                 homepage_text := textRes.homepage_text, stage := .http },
               { c2 with textErrors := c2.textErrors + 1 })
            else
              ({ domain := domain, has_dns := dnsRes.has_dns,
                 dns_ips := dnsRes.dns_ips, http_ok := httpRes.http_ok,
                 final_url := httpRes.final_url,
                 status_code := httpRes.status_code,
                 used_https := httpRes.used_https, text_ok := textRes.text_ok,
                 homepage_text := textRes.homepage_text, stage := .text },
               { c2 with textCount := c2.textCount + 1 })

/-- The whole for loop of lines 164-210: the ordered results list and the
final counters. -/
def runFunnel (env : Env) (c : Counters) :
    List String → List DomainRecord × Counters
  | [] => ([], c)
  | d :: ds =>
    let step := processDomain env c d
    let rest := runFunnel env step.2 ds
    (step.1 :: rest.1, rest.2)

/-- One input row as read from the input parquet: a domain field that may
be missing. -/
structure Row where
  domain : Option String

/-- The truthiness test `if (rec.domain)` of line 149 on a string field:
present and non-empty. -/
def truthyDomain : Option String → Bool
  | none => false
  | some s => !(s = "")

/-- Lines 146-150: the rows kept are those with a truthy domain field, and
the funnel consumes their domain strings in input order. -/
def loadDomains (rows : List Row) : List String :=
  (rows.filter fun r => truthyDomain r.domain).map fun r => r.domain.getD ""

/-- The funnel part of main (lines 142-212): load the domains, run the
loop from zeroed counters; the results list is what line 212 hands to the
parquet writer. -/
def mainRun (env : Env) (rows : List Row) : List DomainRecord × Counters :=
  runFunnel env initCounters (loadDomains rows)

/-! ## Observations of one pass used by the counter claims -/

/-- The counter values observable at the await boundaries of one pass of
the loop body, in order: at pass start (before the dns call), before the
http call when it is reached (after the dnsCount increment of line 172),
before the text call when it is reached (after the httpCount increment of
line 178), and at pass end.  Read off statement order in lines 164-200. -/
def passCheckpoints (env : Env) (c : Counters) (domain : String) :
    List Counters :=
  match env.dnsStage domain with
  | .error _ => [c, { c with dnsErrors := c.dnsErrors + 1 }]
  | .ok dnsRes =>
    if !dnsRes.has_dns then [c, { c with dnsErrors := c.dnsErrors + 1 }]
    else
      let c1 := { c with dnsCount := c.dnsCount + 1 }
      match env.httpStage domain with
      | .error _ => [c, c1, { c1 with dnsErrors := c1.dnsErrors + 1 }]
      | .ok httpRes =>
        if !httpRes.http_ok then
          [c, c1, { c1 with httpErrors := c1.httpErrors + 1 }]
        else
          let c2 := { c1 with httpCount := c1.httpCount + 1 }
          match env.textStage (httpRes.final_url.getD "") with
          | .error _ => [c, c1, c2, { c2 with dnsErrors := c2.dnsErrors + 1 }]
          | .ok textRes =>
            if !textRes.text_ok then
              [c, c1, c2, { c2 with textErrors := c2.textErrors + 1 }]
            else
              [c, c1, c2, { c2 with textCount := c2.textCount + 1 }]

/-- The counters are untouched at every checkpoint of the pass but the
final one: the reading of the claim that mutation happens only once the
pass completes. -/
def countersUnchangedMidPass (env : Env) (c : Counters) (domain : String) :
    Prop :=
  ∀ x ∈ (passCheckpoints env c domain).dropLast, x = c

instance (env : Env) (c : Counters) (domain : String) :
    Decidable (countersUnchangedMidPass env c domain) := by
  unfold countersUnchangedMidPass
  infer_instance

/-- Exactly one of the six counters advances by one. -/
def oneStep (a b : Counters) : Prop :=
  b = { a with dnsCount := a.dnsCount + 1 } ∨
  b = { a with httpCount := a.httpCount + 1 } ∨
  b = { a with textCount := a.textCount + 1 } ∨
  b = { a with dnsErrors := a.dnsErrors + 1 } ∨
  b = { a with httpErrors := a.httpErrors + 1 } ∨
  b = { a with textErrors := a.textErrors + 1 }

/-! ## Stage outcome predicates of the abstract environment -/

/-- The dns stage call returns and reports has_dns. -/
def dnsSucceeded (env : Env) (d : String) : Bool :=
  match env.dnsStage d with
  | .error _ => false
  | .ok r => r.has_dns

/-- The http stage call returns and reports http_ok. -/
def httpOkRaw (env : Env) (d : String) : Bool :=
  match env.httpStage d with
  | .error _ => false
  | .ok r => r.http_ok

/-- The probe for this domain succeeded in the funnel's sense: dns
succeeded and the http stage reported ok. -/
def probeSucceeded (env : Env) (d : String) : Bool :=
  dnsSucceeded env d && httpOkRaw env d

/-- The text stage call on the probe's final URL returns and reports
text_ok. -/
def textOkRaw (env : Env) (d : String) : Bool :=
  match env.httpStage d with
  | .error _ => false
  | .ok hr =>
    match env.textStage (hr.final_url.getD "") with
    | .error _ => false
    | .ok tr => tr.text_ok

/-- The extraction for this domain succeeded in the funnel's sense. -/
def extractSucceeded (env : Env) (d : String) : Bool :=
  probeSucceeded env d && textOkRaw env d

/-- No stage call ever throws: every fault is converted to a negative
result inside the stage itself, as the stage contracts promise. -/
def envNoThrow (env : Env) : Prop :=
  (∀ d, env.dnsStage d ≠ .error ()) ∧
  (∀ d, env.httpStage d ≠ .error ()) ∧
  (∀ u, env.textStage u ≠ .error ())

/-- Some stage call of this domain's pass throws an unanticipated fault:
the dns call itself, the http call after a dns success, or the text call
after an http success. -/
def stageThrew (env : Env) (d : String) : Prop :=
  env.dnsStage d = .error () ∨
  (∃ dr, env.dnsStage d = .ok dr ∧ dr.has_dns = true ∧
    (env.httpStage d = .error () ∨
      (∃ hr, env.httpStage d = .ok hr ∧ hr.http_ok = true ∧
        env.textStage (hr.final_url.getD "") = .error ())))

/-- Per-stage balance after a processed list: succeeded plus failed equals
attempted, with attempted read off the prior stage (every processed domain
for dns, every domain whose resolve succeeded for http, every domain whose
probe succeeded for text). -/
def stageBalancedAt (env : Env) (ds : List String) (c : Counters) : Prop :=
  c.dnsCount + c.dnsErrors = ds.length ∧
  c.httpCount + c.httpErrors = (ds.filter fun d => dnsSucceeded env d).length ∧
  c.textCount + c.textErrors = (ds.filter fun d => probeSucceeded env d).length

instance (env : Env) (ds : List String) (c : Counters) :
    Decidable (stageBalancedAt env ds c) := by
  unfold stageBalancedAt
  infer_instance

/-- The stage-flag consistency of one record, the monotonicity table of the
spec, as a decidable check. -/
def stageConsistent (r : DomainRecord) : Bool :=
  match r.stage with
  | .text => r.has_dns && r.http_ok && r.text_ok
  | .http => r.has_dns && r.http_ok && !r.text_ok
  | .dns => r.has_dns && !r.http_ok
  | .fail => !r.has_dns

/-- Count a boolean as one or zero, for the counter characterization. -/
def boolCnt (b : Bool) : Nat := if b then 1 else 0

/-! ## Concrete environments and oracles used as evaluation inputs -/

/-- An environment where every stage returns and every check passes. -/
def envAllOk : Env :=
  { dnsStage := fun _ => .ok { has_dns := true, dns_ips := some "1.2.3.4" }
    httpStage := fun _ => .ok
      { http_ok := true, final_url := some "https://site.example/",
        status_code := some 200, used_https := true }
    textStage := fun _ => .ok
      { homepage_text := some "words", text_ok := true } }

/-- An environment whose http stage call throws after a dns success. -/
def envThrowHttp : Env :=
  { dnsStage := fun _ => .ok { has_dns := true, dns_ips := some "1.2.3.4" }
    httpStage := fun _ => .error ()
    textStage := fun _ => .ok { homepage_text := none, text_ok := false } }

/-- A hostname oracle giving an ordinary named host for every URL. -/
def hnNamedW : String → Option String := fun _ => some "site.example"

/-- A request oracle where only the secure bare candidate answers, with a
named final host. -/
def fetchNamedW : String → Option HttpResp := fun u =>
  if u = "https://d/" then some { status := 200, responseUrl := "https://site.example/" }
  else none

/-- A hostname oracle giving a dotted-quad host for every URL. -/
def hnQuadW : String → Option String := fun _ => some "1.2.3.4"

/-- A request oracle where only the secure bare candidate answers, with a
dotted-quad final host. -/
def fetchQuadW : String → Option HttpResp := fun u =>
  if u = "https://d/" then some { status := 200, responseUrl := "http://1.2.3.4/" }
  else none

/-- A hostname oracle mapping the dotted-quad final URL to its address and
everything else to a named host. -/
def hnMixW : String → Option String := fun u =>
  if u = "http://9.9.9.9/" then some "9.9.9.9" else some "clean.example"

/-- A request oracle whose first URL answers with a dotted-quad final host
and whose second would answer cleanly. -/
def fetchMixW : String → Option HttpResp := fun u =>
  if u = "a" then some { status := 200, responseUrl := "http://9.9.9.9/" }
  else if u = "b" then some { status := 200, responseUrl := "https://clean.example/" }
  else none

/-- A hostname oracle recognizing only the bracketed IPv6 final URL. -/
def hnSixW : String → Option String := fun u =>
  if u = "http://[::1]/" then some "[::1]" else none

/-- A request oracle where the secure bare candidate redirects to a
bracketed IPv6 literal host. -/
def fetchSixW : String → Option HttpResp := fun u =>
  if u = "https://d/" then some { status := 200, responseUrl := "http://[::1]/" }
  else none

/-- A hostname oracle for which URL parsing always throws. -/
def hnThrowW : String → Option String := fun _ => none

/-- A text oracle answering with 250 identical letters. -/
def fetchLongTextW : String → Option TextResp := fun _ =>
  some { status := 200, bodyText := String.mk (List.replicate 250 'a') }

/-- A text oracle whose request always throws. -/
def fetchNoTextW : String → Option TextResp := fun _ => none

/-! ## Theorems -/

/-- Every branch of the loop body records the domain it was processing. -/
theorem processDomain_fst_domain (env : Env) (c : Counters) (d : String) :
    (processDomain env c d).1.domain = d := by
  unfold processDomain
  repeat' split
  all_goals rfl

/-- The loop emits the processed domains, in order. -/
theorem runFunnel_map_domain (env : Env) (c : Counters) (ds : List String) :
    ((runFunnel env c ds).1).map (fun r => r.domain) = ds := by
  induction ds generalizing c with
  | nil => rfl
  | cons d ds ih => simp [runFunnel, ih, processDomain_fst_domain]

/-- Claim C1: for every run over rows with a truthy domain field, the results
list handed to the parquet writer holds exactly one DomainRecord per input
domain, carrying that domain, in input order, whatever the stage outcomes
or faults were. -/
theorem results_one_record_per_input_domain (env : Env) (rows : List Row) :
    ((mainRun env rows).1).map (fun r => r.domain) = loadDomains rows :=
  runFunnel_map_domain env initCounters (loadDomains rows)

/-- Claim C2: every emitted record satisfies the stage-flag monotonicity table:
stage text forces all three flags, stage http forces dns and http but not
text, stage dns forces dns but not http, stage fail forces no dns. -/
theorem stage_flags_monotonic (env : Env) (c : Counters) (d : String) :
    stageConsistent (processDomain env c d).1 = true := by
  unfold processDomain
  repeat' split
  all_goals simp_all [stageConsistent, failRecord]

/-- Claim C3: when a stage call of one domain's pass throws an unanticipated
fault, that domain is recorded with the all-absent stage-fail record, the
dns failure counter advances by one, and the loop goes on to emit the
remaining domains' records after it: the run is not aborted. -/
theorem unexpected_fault_recorded_run_continues (env : Env) (c : Counters)
    (d : String) (ds : List String) (h : stageThrew env d) :
    (processDomain env c d).1 = failRecord d ∧
    (processDomain env c d).2.dnsErrors = c.dnsErrors + 1 ∧
    (runFunnel env c (d :: ds)).1 =
      failRecord d :: (runFunnel env (processDomain env c d).2 ds).1 := by
  have hrec : (processDomain env c d).1 = failRecord d ∧
      (processDomain env c d).2.dnsErrors = c.dnsErrors + 1 := by
    rcases h with h | ⟨dr, hdr, hhas, h⟩
    · simp [processDomain, h]
    · rcases h with h | ⟨hr, hhr, hok, h⟩
      · simp [processDomain, hdr, hhas, h]
      · simp [processDomain, hdr, hhas, hhr, hok, h]
  exact ⟨hrec.1, hrec.2, by simp [runFunnel, hrec.1]⟩

/-- Evaluation of the fault handling at a concrete environment whose http
stage throws: the record and counter conclusions hold there. -/
theorem unexpected_fault_recorded_run_continues_witness :
    (processDomain envThrowHttp initCounters "a").1 = failRecord "a" ∧
    (processDomain envThrowHttp initCounters "a").2.dnsErrors =
      initCounters.dnsErrors + 1 ∧
    (runFunnel envThrowHttp initCounters ["a", "b"]).1 =
      failRecord "a" ::
        (runFunnel envThrowHttp (processDomain envThrowHttp initCounters "a").2
          ["b"]).1 :=
  unexpected_fault_recorded_run_continues envThrowHttp initCounters "a" ["b"]
    (Or.inr ⟨{ has_dns := true, dns_ips := some "1.2.3.4" }, rfl, rfl,
      Or.inl rfl⟩)

/-- The candidate loop computes the handled first success of the list, and
the failure result when no URL succeeds. -/
theorem httpGo_eq_firstSuccess (hn : String → Option String)
    (fetch : String → Option HttpResp) (urls : List String) :
    httpGo hn fetch urls =
      (match firstSuccessOver fetch urls with
       | none => httpNotOk
       | some r => handleSuccess hn r) := by
  induction urls with
  | nil => rfl
  | cons u rest ih =>
    unfold httpGo firstSuccessOver
    rcases hf : fetch u with _ | r
    · simpa [List.findSome?_cons, hf, firstSuccessOver] using ih
    · rcases hs : statusOk r with _ | _
      · simpa [List.findSome?_cons, hf, hs, firstSuccessOver] using ih
      · simp [List.findSome?_cons, hf, hs, firstSuccessOver]

/-- Claim C4: the probe tries exactly the four candidate URLs secure-bare,
secure-www, insecure-bare, insecure-www in that order, treats a final
status in the interval from 200 up to but excluding 400 as success,
returns at the first candidate that succeeds, falls through to the next
candidate on a thrown request or a non-success status, and returns the
all-absent not-ok result when no candidate succeeds. -/
theorem httpCheck_first_success_of_candidates (hn : String → Option String)
    (fetch : String → Option HttpResp) (d : String) :
    candidateUrls d =
      ["https://" ++ d ++ "/", "https://www." ++ d ++ "/",
       "http://" ++ d ++ "/", "http://www." ++ d ++ "/"] ∧
    httpCheck hn fetch d = probeSpec hn fetch d :=
  ⟨rfl, httpGo_eq_firstSuccess hn fetch (candidateUrls d)⟩

/-- When the candidate loop reports ok, the final URL it returns was
checked against the dotted-quad rule and passed. -/
theorem httpGo_ok_no_ip (hn : String → Option String)
    (fetch : String → Option HttpResp) (urls : List String)
    (h : (httpGo hn fetch urls).http_ok = true) :
    ∃ u, (httpGo hn fetch urls).final_url = some u ∧ isIpHost hn u = false := by
  induction urls with
  | nil => simp [httpGo, httpNotOk] at h
  | cons u rest ih =>
    unfold httpGo at h ⊢
    rcases hf : fetch u with _ | r
    · simp only [hf] at h ⊢; exact ih h
    · simp only [hf] at h ⊢
      rcases hs : statusOk r with _ | _
      · simp only [hs, Bool.false_eq_true, if_false] at h ⊢
        exact ih h
      · simp only [hs, if_true] at h ⊢
        unfold handleSuccess at h ⊢
        rcases hip : isIpHost hn r.responseUrl with _ | _
        · simp only [hip, Bool.false_eq_true, if_false] at h ⊢
          exact ⟨r.responseUrl, rfl, hip⟩
        · simp only [hip, if_true] at h
          simp [httpNotOk] at h

/-- When the first successful response of the list has a dotted-quad final
host, the candidate loop returns the all-absent failure result. -/
theorem httpGo_ip_reject (hn : String → Option String)
    (fetch : String → Option HttpResp) (urls : List String) (r : HttpResp)
    (hfs : firstSuccessOver fetch urls = some r)
    (hip : isIpHost hn r.responseUrl = true) :
    httpGo hn fetch urls = httpNotOk := by
  induction urls with
  | nil => simp [firstSuccessOver] at hfs
  | cons u rest ih =>
    unfold firstSuccessOver at hfs
    rw [List.findSome?_cons] at hfs
    unfold httpGo
    rcases hf : fetch u with _ | r'
    · simp only [hf] at hfs ⊢
      exact ih (by simpa [firstSuccessOver] using hfs)
    · simp only [hf] at hfs ⊢
      rcases hs : statusOk r' with _ | _
      · simp only [hs, Bool.false_eq_true, if_false] at hfs ⊢
        exact ih (by simpa [firstSuccessOver] using hfs)
      · simp only [hs, if_true, Option.some.injEq] at hfs ⊢
        subst hfs
        simp [handleSuccess, hip]

/-- Claim C5: the probe never reports ok with a dotted-quad final host: an ok
result carries a final URL that failed the isIpHost test, and whenever the
first successful response's fully-redirected URL has a dotted-quad host
the whole probe returns the result with final_url and status_code
absent. -/
theorem httpCheck_never_ok_with_dotted_quad_host (hn : String → Option String)
    (fetch : String → Option HttpResp) (d : String) :
    ((httpCheck hn fetch d).http_ok = true →
      ∃ u, (httpCheck hn fetch d).final_url = some u ∧ isIpHost hn u = false) ∧
    (∀ r, firstSuccessResp fetch d = some r →
      isIpHost hn r.responseUrl = true → httpCheck hn fetch d = httpNotOk) :=
  ⟨fun h => httpGo_ok_no_ip hn fetch (candidateUrls d) h,
   fun r hfs hip => httpGo_ip_reject hn fetch (candidateUrls d) r hfs hip⟩

/-- Evaluation of the dotted-quad rule at concrete oracles: a probe that
ends on a named host is ok with that non-quad final URL, and a probe whose
success redirects to a dotted-quad host returns the all-absent result. -/
theorem httpCheck_never_ok_with_dotted_quad_host_witness :
    (∃ u, (httpCheck hnNamedW fetchNamedW "d").final_url = some u ∧
      isIpHost hnNamedW u = false) ∧
    httpCheck hnQuadW fetchQuadW "d" = httpNotOk :=
  ⟨(httpCheck_never_ok_with_dotted_quad_host hnNamedW fetchNamedW "d").1
      (by decide),
   (httpCheck_never_ok_with_dotted_quad_host hnQuadW fetchQuadW "d").2
      { status := 200, responseUrl := "http://1.2.3.4/" } (by decide)
      (by decide)⟩

/-- The truncated text's length is the minimum of the cap and the original
length. -/
theorem strTake_length (s : String) (n : Nat) :
    (strTake s n).length = min n s.length := by
  show (s.data.take n).length = min n s.data.length
  simp

/-- Claim C6: when text extraction reports ok the stored homepage text is
present with length between TEXT_MIN_CHARS (200) and TEXT_MAX_CHARS
(10000); when it reports not ok the homepage text is absent. -/
theorem fetchText_length_bounds (fetch : String → Option TextResp)
    (url : String) :
    ((fetchText fetch url).text_ok = true →
      ∃ t, (fetchText fetch url).homepage_text = some t ∧
        TEXT_MIN_CHARS ≤ t.length ∧ t.length ≤ TEXT_MAX_CHARS) ∧
    ((fetchText fetch url).text_ok = false →
      (fetchText fetch url).homepage_text = none) ∧
    TEXT_MIN_CHARS = 200 ∧ TEXT_MAX_CHARS = 10000 := by
  refine ⟨?_, ?_, rfl, rfl⟩
  · intro h
    unfold fetchText at h ⊢
    rcases hf : fetch url with _ | resp
    · simp [hf] at h
    · simp only [hf] at h ⊢
      by_cases hst : 200 ≤ resp.status ∧ resp.status < 400
      · rw [if_pos hst] at h ⊢
        by_cases hlen : TEXT_MIN_CHARS ≤ (normalizeWs resp.bodyText).length
        · rw [if_pos hlen] at h ⊢
          refine ⟨_, rfl, ?_, ?_⟩
          · rw [strTake_length]
            simp only [TEXT_MIN_CHARS, TEXT_MAX_CHARS] at hlen ⊢
            omega
          · rw [strTake_length]
            simp only [TEXT_MAX_CHARS]
            omega
        · rw [if_neg hlen] at h
          simp at h
      · rw [if_neg hst] at h
        simp at h
  · intro h
    unfold fetchText at h ⊢
    rcases hf : fetch url with _ | resp
    · simp only [hf]
    · simp only [hf] at h ⊢
      by_cases hst : 200 ≤ resp.status ∧ resp.status < 400
      · rw [if_pos hst] at h ⊢
        by_cases hlen : TEXT_MIN_CHARS ≤ (normalizeWs resp.bodyText).length
        · rw [if_pos hlen] at h
          simp at h
        · rw [if_neg hlen]
      · rw [if_neg hst]

set_option maxRecDepth 8192 in
/-- Evaluation of the extraction bounds at concrete oracles: a 250-letter
body is accepted with its stored text inside the bounds, and a throwing
request stores nothing. -/
theorem fetchText_length_bounds_witness :
    (∃ t, (fetchText fetchLongTextW "u").homepage_text = some t ∧
      TEXT_MIN_CHARS ≤ t.length ∧ t.length ≤ TEXT_MAX_CHARS) ∧
    (fetchText fetchNoTextW "u").homepage_text = none :=
  ⟨(fetchText_length_bounds fetchLongTextW "u").1 (by decide),
   (fetchText_length_bounds fetchNoTextW "u").2.1 (by decide)⟩

/-- Claim C9: the moment a candidate's request completes with a success status
but a dotted-quad final host, the loop returns the all-absent result for
the whole domain, whatever candidates remain untried. -/
theorem ip_rejection_stops_candidate_loop (hn : String → Option String)
    (fetch : String → Option HttpResp) (u : String) (rest : List String)
    (r : HttpResp) (hf : fetch u = some r) (hs : statusOk r = true)
    (hip : isIpHost hn r.responseUrl = true) :
    httpGo hn fetch (u :: rest) = httpNotOk := by
  unfold httpGo
  simp only [hf, hs, if_true]
  simp [handleSuccess, hip]

/-- Evaluation of the early dotted-quad rejection at concrete oracles
where the second candidate would have answered cleanly: the loop still
returns the all-absent result. -/
theorem ip_rejection_stops_candidate_loop_witness :
    httpGo hnMixW fetchMixW ["a", "b"] = httpNotOk :=
  ip_rejection_stops_candidate_loop hnMixW fetchMixW "a" ["b"]
    { status := 200, responseUrl := "http://9.9.9.9/" } (by decide) (by decide)
    (by decide)

/-- Splitting on dots never yields an empty group list. -/
theorem splitDots_ne_nil : ∀ cs : List Char, splitDots cs ≠ []
  | [] => by simp [splitDots]
  | c :: rest => by
    unfold splitDots
    split
    · simp
    · split <;> simp

/-- When every dot-separated group consists of digits, every character of
the original list is a digit or a dot. -/
theorem splitDots_all_digit_chars :
    ∀ cs : List Char, ((splitDots cs).all fun g => g.all Char.isDigit) = true →
      ∀ c ∈ cs, c.isDigit = true ∨ c = '.' := by
  intro cs
  induction cs with
  | nil => intro _ c hc; cases hc
  | cons a rest ih =>
    intro h c hc
    by_cases ha : a = '.'
    · subst ha
      rw [show splitDots ('.' :: rest) = [] :: splitDots rest from by
        simp [splitDots]] at h
      simp only [List.all_cons, Bool.and_eq_true] at h
      rcases List.mem_cons.mp hc with rfl | hc
      · exact Or.inr rfl
      · exact ih h.2 c hc
    · rcases hsr : splitDots rest with _ | ⟨g, gs⟩
      · exact absurd hsr (splitDots_ne_nil rest)
      · rw [show splitDots (a :: rest) = (a :: g) :: gs from by
          simp [splitDots, ha, hsr]] at h
        simp only [List.all_cons, Bool.and_eq_true] at h
        rcases List.mem_cons.mp hc with rfl | hc
        · exact Or.inl h.1.1
        · exact ih (by rw [hsr]; simp only [List.all_cons, Bool.and_eq_true]
                       exact ⟨h.1.2, h.2⟩) c hc

/-- A string accepted by the dotted-quad test holds only digits and
dots. -/
theorem isDottedQuad_digit_chars (h : String) (hd : isDottedQuad h = true) :
    ∀ c ∈ h.data, c.isDigit = true ∨ c = '.' := by
  unfold isDottedQuad at hd
  simp only [Bool.and_eq_true] at hd
  apply splitDots_all_digit_chars
  rw [List.all_eq_true] at hd ⊢
  intro g hg
  have hdig := hd.2 g hg
  unfold digits13 at hdig
  simp only [Bool.and_eq_true] at hdig
  exact hdig.2

/-- Claim C10: the dotted-quad test accepts exactly the parsable URLs whose
hostname is four dot-separated groups of one to three decimal digits,
including out-of-range octets; it rejects unparsable URLs and any host
containing a colon, so an IPv6-literal final host can pass the probe as
ok. -/
theorem isIpHost_characterization :
    (∀ hn url, isIpHost hn url = true ↔
      ∃ h, hn url = some h ∧ isDottedQuad h = true) ∧
    isDottedQuad "999.999.999.999" = true ∧
    (∀ hn url, hn url = none → isIpHost hn url = false) ∧
    (∀ h : String, ':' ∈ h.data → isDottedQuad h = false) ∧
    ((httpCheck hnSixW fetchSixW "d").http_ok = true ∧
      (httpCheck hnSixW fetchSixW "d").final_url = some "http://[::1]/" ∧
      hnSixW "http://[::1]/" = some "[::1]" ∧ ':' ∈ "[::1]".data) := by
  refine ⟨?_, by decide, ?_, ?_, by decide⟩
  · intro hn url
    unfold isIpHost
    rcases h : hn url with _ | host <;> simp [h]
  · intro hn url h
    simp [isIpHost, h]
  · intro h hc
    by_contra hq
    have hq' : isDottedQuad h = true := by
      cases hb : isDottedQuad h
      · exact absurd hb hq
      · rfl
    rcases isDottedQuad_digit_chars h hq' ':' hc with hd | hd
    · exact absurd hd (by decide)
    · exact absurd hd (by decide)

/-- Claim C8 counterexample: at a concrete all-ok pass from zeroed counters, the
counters observed at the await boundaries before the pass ends already
differ from the starting counters: dnsCount is incremented before the http
stage call runs. -/
theorem counters_mutated_mid_pass :
    ¬ countersUnchangedMidPass envAllOk initCounters "a" := by decide

/-- Claim C8 amended: the counter states observable at the await boundaries of a
pass start at the incoming counters, end at the pass's final counters, and
each consecutive pair differs by exactly one counter advancing by one: the
stage's success counter right after that stage succeeds, before the next
stage call, and the matching failure counter at pass end — mutation is not
confined to pass completion. -/
theorem counters_step_at_stage_boundaries (env : Env) (c : Counters)
    (d : String) :
    (passCheckpoints env c d).head? = some c ∧
    (passCheckpoints env c d).getLast? = some (processDomain env c d).2 ∧
    List.Chain' oneStep (passCheckpoints env c d) := by
  unfold passCheckpoints processDomain
  repeat' split
  all_goals refine ⟨rfl, rfl, ?_⟩
  all_goals simp [List.chain'_cons, oneStep]

/-- A list splits into the elements passing a boolean test and those
failing it. -/
theorem length_filter_not_split {α : Type} (p : α → Bool) (l : List α) :
    (l.filter p).length + (l.filter fun a => !p a).length = l.length := by
  induction l with
  | nil => rfl
  | cons a l ih => cases h : p a <;> simp [List.filter_cons, h] <;> omega

/-- The elements passing a conjunction and those passing the first test
but failing the second together make up those passing the first test. -/
theorem length_filter_and_split {α : Type} (p q : α → Bool) (l : List α) :
    (l.filter fun a => p a && q a).length +
      (l.filter fun a => p a && !q a).length = (l.filter p).length := by
  induction l with
  | nil => rfl
  | cons a l ih =>
    cases hp : p a <;> cases hq : q a <;> simp [List.filter_cons, hp, hq] <;>
      omega

/-- When no stage call throws, one pass advances each counter by the
indicator of the matching stage outcome. -/
theorem processDomain_counters (env : Env) (c : Counters) (d : String)
    (h1 : env.dnsStage d ≠ .error ()) (h2 : env.httpStage d ≠ .error ())
    (h3 : ∀ u, env.textStage u ≠ .error ()) :
    (processDomain env c d).2 =
      { dnsCount := c.dnsCount + boolCnt (dnsSucceeded env d),
        httpCount := c.httpCount +
          boolCnt (dnsSucceeded env d && httpOkRaw env d),
        textCount := c.textCount +
          boolCnt ((dnsSucceeded env d && httpOkRaw env d) && textOkRaw env d),
        dnsErrors := c.dnsErrors + boolCnt (!dnsSucceeded env d),
        httpErrors := c.httpErrors +
          boolCnt (dnsSucceeded env d && !httpOkRaw env d),
        textErrors := c.textErrors +
          boolCnt ((dnsSucceeded env d && httpOkRaw env d) &&
            !textOkRaw env d) } := by
  rcases hdr : env.dnsStage d with e | dr
  · cases e; exact absurd hdr h1
  rcases hhr : env.httpStage d with e | hr
  · cases e; exact absurd hhr h2
  rcases htr : env.textStage (hr.final_url.getD "") with e | tr
  · cases e; exact absurd htr (h3 _)
  unfold processDomain dnsSucceeded httpOkRaw textOkRaw
  simp only [hdr, hhr, htr]
  cases hb1 : dr.has_dns <;> cases hb2 : hr.http_ok <;>
    cases hb3 : tr.text_ok <;> simp [boolCnt]

/-- When no stage call throws, the final counters of a run count, for each
stage outcome, the processed domains with that outcome. -/
theorem runFunnel_counters (env : Env) (hnt : envNoThrow env)
    (ds : List String) : ∀ c : Counters,
    (runFunnel env c ds).2 =
      { dnsCount := c.dnsCount +
          (ds.filter fun d => dnsSucceeded env d).length,
        httpCount := c.httpCount +
          (ds.filter fun d => dnsSucceeded env d && httpOkRaw env d).length,
        textCount := c.textCount +
          (ds.filter fun d =>
            (dnsSucceeded env d && httpOkRaw env d) && textOkRaw env d).length,
        dnsErrors := c.dnsErrors +
          (ds.filter fun d => !dnsSucceeded env d).length,
        httpErrors := c.httpErrors +
          (ds.filter fun d => dnsSucceeded env d && !httpOkRaw env d).length,
        textErrors := c.textErrors +
          (ds.filter fun d =>
            (dnsSucceeded env d && httpOkRaw env d) &&
              !textOkRaw env d).length } := by
  induction ds with
  | nil => intro c; simp [runFunnel]
  | cons d ds ih =>
    intro c
    have hpd := processDomain_counters env c d (hnt.1 d) (hnt.2.1 d) hnt.2.2
    show (runFunnel env (processDomain env c d).2 ds).2 = _
    rw [ih, hpd]
    cases h1 : dnsSucceeded env d <;> cases h2 : httpOkRaw env d <;>
      cases h3 : textOkRaw env d <;>
      simp [List.filter_cons, h1, h2, h3, boolCnt, Counters.mk.injEq] <;>
      omega

/-- Claim C7 counterexample: with a concrete environment whose http stage throws
after a dns success, already after the first domain the succeeded plus
failed counts no longer match the attempts: the domain is counted in both
the dns success and dns failure counters and in neither http counter. -/
theorem stage_counts_unbalanced_after_throw :
    ¬ stageBalancedAt envThrowHttp ["a"]
      ((runFunnel envThrowHttp initCounters ["a"]).2) := by decide

/-- Claim C7 amended: provided no stage call throws, at every pass boundary each
stage's succeeded count plus its failed count equals its attempts: every
processed domain for dns, every domain whose resolve succeeded for http,
every domain whose probe succeeded for text. -/
theorem stage_counts_balanced_no_throw (env : Env) (hnt : envNoThrow env)
    (ds : List String) :
    stageBalancedAt env ds ((runFunnel env initCounters ds).2) := by
  rw [runFunnel_counters env hnt ds initCounters]
  unfold stageBalancedAt initCounters
  refine ⟨?_, ?_, ?_⟩
  · simpa using length_filter_not_split (fun d => dnsSucceeded env d) ds
  · simpa using
      length_filter_and_split (fun d => dnsSucceeded env d)
        (fun d => httpOkRaw env d) ds
  · have := length_filter_and_split
      (fun d => dnsSucceeded env d && httpOkRaw env d)
      (fun d => textOkRaw env d) ds
    simpa [probeSucceeded] using this

/-- Evaluation of the balance at a concrete throw-free environment over
two domains. -/
theorem stage_counts_balanced_no_throw_witness :
    stageBalancedAt envAllOk ["a", "b"]
      ((runFunnel envAllOk initCounters ["a", "b"]).2) :=
  stage_counts_balanced_no_throw envAllOk
    ⟨fun _ h => Except.noConfusion h, fun _ h => Except.noConfusion h,
      fun _ h => Except.noConfusion h⟩ ["a", "b"]

end Scrape
